import Mathlib

/-!
Verification development for the SPL compiler front-end (src/src/ast.h).

The embedding models the type-representation layer (`SType` and its
subclasses), the expression AST methods that the properties below depend on
(`isMutable`, constructor initialization of the resolved-type slot, the
`Func`/`Extern` constructors), the `SGenericType` id counter, and the
parser token enumeration.  Method bodies that live in the repository's
missing implementation file are modelled from the specification and marked
as such in their doc comments.
-/

namespace SPL

/-- The dynamic class of a type object in the `SType` hierarchy
(ast.h:485-649).  Each C++ subclass is one constructor; `sstring` is kept
distinct from `sarray` because virtual dispatch (e.g. of `ParamRebind`)
distinguishes the dynamic classes, even though an `SString` object is an
`SArray` containing `Int8` (ast.h:588-604).  `sstruct` carries its name
only: struct equality is nominal (spec section 4.5).  `sgeneric` carries
the unification-variable name and its unique id; the mutable `Binding`
slot is unification state, not part of the type term. -/
inductive STy where
  | svoid
  | int8
  | int16
  | int32
  | int64
  | sbool
  | sstring
  | sarray (contained : STy)
  | sstruct (name : String)
  | sfunction (args : List STy) (ret : STy)
  | sptr (ref : STy)
  | sgeneric (name : String) (id : Nat)

namespace STy

mutual
/-- Modelled from the spec: structural equality on type terms
(spec section 4.5: nominal for structs, equal iff same name; structural for
`Array`, `Function`, `Ptr`; `Generic` by `id`; `String` is structurally
equal to `Array<Int8>`).  The body of the comparison is not in src/src/ast.h. -/
def structEq : STy → STy → Bool
  | .svoid, .svoid => true
  | .int8, .int8 => true
  | .int16, .int16 => true
  | .int32, .int32 => true
  | .int64, .int64 => true
  | .sbool, .sbool => true
  | .sstring, .sstring => true
  | .sstring, .sarray b => structEq .int8 b
  | .sarray a, .sstring => structEq a .int8
  | .sarray a, .sarray b => structEq a b
  | .sstruct n, .sstruct m => n = m
  | .sfunction as r, .sfunction bs s => structEqList as bs && structEq r s
  | .sptr a, .sptr b => structEq a b
  | .sgeneric _ i, .sgeneric _ j => i = j
  | _, _ => false

/-- Element-wise structural equality of two type lists. -/
def structEqList : List STy → List STy → Bool
  | [], [] => true
  | a :: as, b :: bs => structEq a b && structEqList as bs
  | _, _ => false
end

mutual
theorem structEq_refl : ∀ t : STy, structEq t t = true
  | .svoid => by simp [structEq]
  | .int8 => by simp [structEq]
  | .int16 => by simp [structEq]
  | .int32 => by simp [structEq]
  | .int64 => by simp [structEq]
  | .sbool => by simp [structEq]
  | .sstring => by simp [structEq]
  | .sarray a => by simp [structEq, structEq_refl a]
  | .sstruct n => by simp [structEq]
  | .sfunction as r => by
      simp [structEq, structEqList_refl as, structEq_refl r]
  | .sptr a => by simp [structEq, structEq_refl a]
  | .sgeneric n i => by simp [structEq]

theorem structEqList_refl : ∀ ts : List STy, structEqList ts ts = true
  | [] => by simp [structEqList]
  | a :: as => by simp [structEqList, structEq_refl a, structEqList_refl as]
end

end STy

/-- Expression AST (ast.h:57-468).  One constructor per C++ `Expr` subclass.
Fields that no verified property reads (LLVM `Value`/`AllocaInst` slots,
pass-specific scratch such as `Binding::InitReg`, the argument lists of
`Call`/`Func`) are elided.  `var` is C++ `Variable` (ast.h:99-112): its
`bindingRef` field is the `Expr *Binding` back-reference, `none` before the
Bind pass has run (NULL after construction).  `binding` is C++ `Binding`
(ast.h:220-240) with its `CanMutate` flag; its `Body` is NULL after
construction and set later by `setBody`.  `register` is C++ `Register`
(ast.h:291-305).  `registerFunArg` is C++ `RegisterFunArg` (ast.h:308-317);
its field is the `SType *ty` handed to the constructor, which the
constructor stores into the resolved-type slot (`ThisType = ty;`). -/
inductive Expr where
  | number (val : Int)
  | stringLiteral (s : String)
  | var (name : String) (bindingRef : Option Expr)
  | notE (sub : Expr)
  | add (lhs rhs : Expr)
  | subtract (lhs rhs : Expr)
  | multiply (lhs rhs : Expr)
  | eqE (lhs rhs : Expr)
  | joinString (lhs rhs : Expr)
  | seq (lhs rhs : Expr)
  | assign (lhs rhs : Expr)
  | arrayAccess (lhs rhs : Expr)
  | member (source : Expr) (fieldName : String)
  | binding (name : String) (init : Expr) (canMutate : Bool) (body : Option Expr)
  | ifE (cond thenE elseE : Expr)
  | whileE (cond body : Expr)
  | call (calleeName : String) (callee : Option Expr)
  | register (name : String) (source : Option Expr) (canMutate : Bool)
  | registerFunArg (ty : Option STy)
  | func (name : String)
  | externE (name : String)
  | closure (funcName : String)
  | arrayE (size default : Expr)
  | constructorE (stypeName : String)

namespace Expr

/-- Virtual dispatch of `Expr::isMutable` (ast.h:73 default `return false;`).
Overrides: `Variable::isMutable` returns `Binding->isMutable()` (ast.h:111);
`ArrayAccess::isMutable` returns `true` (ast.h:197); `Member::isMutable`
returns `true` (ast.h:215); `Binding::isMutable` returns `CanMutate`
(ast.h:238); `Register::isMutable` returns `CanMutate` (ast.h:304).
A `Variable` whose binding pointer is still NULL is modelled as immutable
(in C++ the call would dereference NULL; the claims only use bound
variables). -/
def isMutable : Expr → Bool
  | .var _ (some d) => d.isMutable
  | .var _ none => false
  | .arrayAccess _ _ => true
  | .member _ _ => true
  | .binding _ _ canMutate _ => canMutate
  | .register _ _ canMutate => canMutate
  | _ => false

/-- Value of the resolved-type slot (`Expr::ThisType`) immediately after the
variant's C++ constructor has run, i.e. what `getSType()` (ast.h:69) returns
before any pass.  The protected base constructor `Expr(): ThisType(NULL)`
(ast.h:60) leaves the slot empty for every subclass constructor except
`RegisterFunArg(SType *ty)`, whose body executes `ThisType = ty;`
(ast.h:311). -/
def ctorSType : Expr → Option STy
  | .registerFunArg ty => ty
  | _ => none

end Expr

/-- Error taxonomy of the compiler core (spec section 7). -/
inductive TError where
  | UnboundName
  | TypeMismatch
  | CannotInferMemberType
  | CannotInferArrayAccess
  | UnknownField
  | AssignToImmutable
  | UnboundedGenericRecursion
  | ArityMismatch

/-- Modelled from the spec: the mutability check of `Assign::TypeInfer`,
which is declared at ast.h:184 but whose body is not under src/.
Spec section 4.2: `Assign(l, r)` → `this = l = r`; requires `l.isMutable()`,
else `AssignToImmutable`.  `lty` is the type unification assigns to `l`
(and hence to `r` and to the whole assignment); the equality constraints
themselves belong to the unifier and are not modelled here. -/
def assignTypeInfer (l : Expr) (_r : Expr) (lty : STy) : Except TError STy :=
  if l.isMutable then Except.ok lty else Except.error TError.AssignToImmutable

/-! ## SGenericType id counter (ast.h:634-649) -/

namespace SGenericType

/-- State of the function-local `static unsigned gid = 0;` inside the
`SGenericType` constructor (ast.h:642).  C++ `unsigned` is 32 bits wide, so
the stored value is always reduced modulo `2^32`. -/
structure GidState where
  gid : Nat

/-- One run of the `SGenericType` constructor body (ast.h:642-643):
`id = gid++;` returns the current counter value as the new instance's `id`
and increments the counter with 32-bit unsigned wraparound. -/
def construct (s : GidState) : Nat × GidState :=
  (s.gid % 2 ^ 32, ⟨(s.gid + 1) % 2 ^ 32⟩)

/-- Counter state after `n` constructor runs starting from the static
initializer `gid = 0`. -/
def stateAfter : Nat → GidState
  | 0 => ⟨0⟩
  | n + 1 => (construct (stateAfter n)).2

/-- The `id` received by the `n`-th `SGenericType` constructed in a process
run (0-based). -/
def nthId (n : Nat) : Nat := (construct (stateAfter n)).1

theorem stateAfter_gid (n : Nat) : (stateAfter n).gid = n % 2 ^ 32 := by
  induction n with
  | zero => simp [stateAfter]
  | succ m ih =>
      have h1 : (1 : Nat) % 2 ^ 32 = 1 := Nat.mod_eq_of_lt (by norm_num)
      show ((stateAfter m).gid + 1) % 2 ^ 32 = (m + 1) % 2 ^ 32
      rw [ih, Nat.add_mod m 1, h1]

theorem nthId_eq (n : Nat) : nthId n = n % 2 ^ 32 := by
  show (stateAfter n).gid % 2 ^ 32 = n % 2 ^ 32
  rw [stateAfter_gid, Nat.mod_mod_of_dvd _ dvd_rfl]

end SGenericType

/-! ## SArray / SString construction (ast.h:573-604) -/

/-- Fields of an `SArray` object that construction determines: the
`SStructType` name installed by the `SStructType(name)` base constructor and
the `Contained` element type (ast.h:573-578). -/
structure SArrayData where
  name : String
  contained : STy

/-- The `SArray(SType *ty)` constructor (ast.h:577-578):
`SStructType("Array"), Contained(ty)`. -/
def mkSArray (ty : STy) : SArrayData := { name := "Array", contained := ty }

/-- The `SString()` constructor (ast.h:595-599): it delegates to
`SArray(new Int8())`, so the object is an array named `"Array"` whose
contained element type is `Int8`. -/
def mkSString : SArrayData := mkSArray STy.int8

/-- Reference to a heap-allocated `SString` object, by object identity. -/
abbrev SStringRef := Nat

/-- Modelled from the spec: `SString::get()` (declared at ast.h:603; body not
under src/).  Spec section 3: `String` is a singleton; the class holds
`static SString *Singleton` (ast.h:589).  The state is the `Singleton`
pointer (`none` while still NULL); a call allocates a fresh object only when
the pointer is NULL and caches it, otherwise returns the cached instance. -/
def sstringGet (fresh : SStringRef) : Option SStringRef → SStringRef × Option SStringRef
  | none => (fresh, some fresh)
  | some r => (r, some r)

/-! ## Func and Extern construction (ast.h:321-412) -/

/-- Purity tags (ast.h:27). -/
inductive Purity where
  | Pure
  | Impure
  | Sealed
  | FunIO

/-- A pre-resolution type reference: `TypePlaceholder` (ast.h:470-483),
identified here by its name (the `Params` list plays no role in the
constructed `Func` fields below). -/
abbrev TypePlaceholderRef := String

/-- The `Func` fields that its constructors determine and that the verified
properties read (ast.h:321-353): the parameter-name vector `Args`, the
placeholder vector `ArgSTypeNames`, the `GenericsAreBound` flag and the
`Pureness` tag. -/
structure FuncData where
  name : String
  args : List String
  argSTypeNames : List TypePlaceholderRef
  genericsAreBound : Bool
  pureness : Purity

/-- The first `Func` constructor (ast.h:341-353), the one `Extern` delegates
to: it sets `GenericsAreBound(false)` and `Pureness(FunIO)` in the
initializer list, and its body pushes the placeholder name `"$"` onto `Args`
once per declared parameter type. -/
def funcCtorFromTypes (name : String) (argstys : List TypePlaceholderRef)
    (_generics : List TypePlaceholderRef) : FuncData :=
  { name := name
    args := argstys.map (fun _ => "$")
    argSTypeNames := argstys
    genericsAreBound := false
    pureness := Purity.FunIO }

/-- The `Extern` constructor (ast.h:403-408): it forwards `name`, `args` and
`generics` unchanged to the first `Func` constructor. -/
def mkExtern (name : String) (generics args : List TypePlaceholderRef) : FuncData :=
  funcCtorFromTypes name args generics

/-- Result of a code-generation entry point: the produced LLVM value (here
the function handle, identified by the function it belongs to) and whether a
function body was emitted on the way. -/
structure GenResult where
  handle : String
  emittedBody : Bool

/-- `Extern::Gen` (ast.h:411): its entire body is `return getFunction();` —
it returns the function handle and performs no body emission.
`getFunction`'s own result is abstracted as the handle of the named
function. -/
def externGen (e : FuncData) : GenResult :=
  { handle := e.name, emittedBody := false }

/-! ## ParamRebind dispatch (ast.h:497-618) -/

namespace STy

/-- Tells whether a type object's dynamic class overrides
`SType::ParamRebind`.  Scanning ast.h, only `SArray` (ast.h:582) and
`SFunctionType` (ast.h:618) declare an override that can differ from the
base; `SString` re-overrides it back to `return this;` (ast.h:601), and no
other subclass declares it. -/
def overridesParamRebind : STy → Bool
  | .sarray _ => true
  | .sfunction _ _ => true
  | _ => false

mutual
/-- Virtual dispatch of `ParamRebind`.  The base `SType::ParamRebind`
returns `this` unchanged (ast.h:497-499) and is inherited by `SVoid`, the
`SPrimitive` integer classes, `SBool`, `SStructType`, `SPtr` and
`SGenericType`; `SString::ParamRebind` returns `this` explicitly
(ast.h:601).  The `SArray` and `SFunctionType` override bodies are not under
src/; they are modelled from the spec as structural rebinding of the
component types (spec section 2: "structural equality and parameter
rebinding" live in the type-representation layer).  Their exact behaviour is
irrelevant to the properties below, which only concern the
non-overriding classes. -/
def ParamRebind (prms : List STy) : STy → STy
  | .sarray c => .sarray (ParamRebind prms c)
  | .sfunction args ret => .sfunction (ParamRebindList prms args) (ParamRebind prms ret)
  | t => t

/-- `ParamRebind` mapped over an argument list. -/
def ParamRebindList (prms : List STy) : List STy → List STy
  | [] => []
  | t :: ts => ParamRebind prms t :: ParamRebindList prms ts
end

end STy

/-! ## The specialization table `Func.functions` (ast.h:335) -/

/-- A heap-allocated type object: its address (object identity, `id`) and
the type term it denotes (`val`).  `SType` objects are handled through
pointers everywhere in ast.h; distinct allocations of structurally equal
types are distinct objects. -/
structure STypeObj where
  id : Nat
  val : STy

/-- Entry selection in `Func.functions`, declared as
`map<vector<SType*>, Function*>` (ast.h:335).  `std::map` orders keys by
lexicographic comparison of the `vector<SType*>` elements, i.e. of the raw
pointers, so two key tuples select the same table entry exactly when their
pointer vectors are equal element-wise. -/
def sameFunctionsEntry (k1 k2 : List STypeObj) : Bool :=
  (k1.map STypeObj.id) = (k2.map STypeObj.id)

/-- Structural equality of two type tuples, lifted from `STy.structEqList`
to heap objects. -/
def structEqObjs (k1 k2 : List STypeObj) : Bool :=
  STy.structEqList (k1.map STypeObj.val) (k2.map STypeObj.val)

end SPL

namespace SPL.Parser

/-- The parser token enumeration (ast.h:678-689): one constructor per
enumerator. -/
inductive Token where
  | tok_eof
  | tok_def
  | tok_io
  | tok_imp
  | tok_var
  | tok_val
  | tok_binary
  | tok_unary
  | tok_identifier
  | tok_number
deriving DecidableEq, Fintype

/-- The integer value of each enumerator (ast.h:679-688). -/
def tokenValue : Token → Int
  | .tok_eof => -1
  | .tok_def => -2
  | .tok_io => -3
  | .tok_imp => -4
  | .tok_var => -5
  | .tok_val => -6
  | .tok_binary => -7
  | .tok_unary => -8
  | .tok_identifier => -9
  | .tok_number => -10

/-- All ten enumerators, in declaration order. -/
def allTokens : List Token :=
  [.tok_eof, .tok_def, .tok_io, .tok_imp, .tok_var,
   .tok_val, .tok_binary, .tok_unary, .tok_identifier, .tok_number]

end SPL.Parser

namespace SPL

/-! ## MatchGenerics (ast.h:619-620)

`SFunctionType::MatchGenerics(callTypes, genericBindings)` is declared in
ast.h but its body is not under src/; it is modelled from the spec
(sections 4.4 and 8): walk signature and site types in lock-step; when the
signature position is a `Generic`, record its binding; otherwise require
structural equality and recurse. -/

/-- Lookup in the derived generic bindings, an association list from
`SGenericType` id to the bound site type. -/
def lookupB : List (Nat × STy) → Nat → Option STy
  | [], _ => none
  | (j, t) :: rest, i => if j = i then some t else lookupB rest i

mutual
/-- Modelled from the spec: one lock-step matching step of a signature
position against a site position, threading the bindings derived so far.
A `Generic` signature position records the site type as its binding (a
position whose id is already bound must agree structurally with the
recorded binding); `Array`, `Function` and `Ptr` recurse component-wise;
every other position requires structural equality. -/
def matchG : STy → STy → List (Nat × STy) → Option (List (Nat × STy))
  | .sgeneric _ i, site, B =>
      match lookupB B i with
      | none => some ((i, site) :: B)
      | some t => if STy.structEq t site then some B else none
  | .sarray a, .sarray b, B => matchG a b B
  | .sfunction as r, .sfunction bs s, B =>
      match matchGList as bs B with
      | none => none
      | some B1 => matchG r s B1
  | .sptr a, .sptr b, B => matchG a b B
  | sig, site, B => if STy.structEq sig site then some B else none

/-- Lock-step matching of a signature type list against a site type list. -/
def matchGList : List STy → List STy → List (Nat × STy) → Option (List (Nat × STy))
  | [], [], B => some B
  | a :: as, b :: bs, B =>
      match matchG a b B with
      | none => none
      | some B1 => matchGList as bs B1
  | _, _, _ => none
end

/-- `MatchGenerics` on a whole signature: derive the generic bindings by
matching the callee's argument types against the call site's types,
starting from no bindings. -/
def MatchGenerics (sigArgs callTypes : List STy) : Option (List (Nat × STy)) :=
  matchGList sigArgs callTypes []

mutual
/-- Modelled from the spec: applying derived generic bindings back to a
signature type — each `Generic` position is replaced by its recorded
binding (and left alone when unbound); all other positions rebuild
structurally. -/
def subst (B : List (Nat × STy)) : STy → STy
  | .sgeneric n i =>
      match lookupB B i with
      | none => .sgeneric n i
      | some t => t
  | .sarray c => .sarray (subst B c)
  | .sfunction args ret => .sfunction (substList B args) (subst B ret)
  | .sptr r => .sptr (subst B r)
  | t => t

/-- `subst` mapped over a signature type list. -/
def substList (B : List (Nat × STy)) : List STy → List STy
  | [] => []
  | t :: ts => subst B t :: substList B ts
end

/-- One binding list extends another: every association present in the
first is present, unchanged, in the second. -/
def bindExt (B B' : List (Nat × STy)) : Prop :=
  ∀ i t, lookupB B i = some t → lookupB B' i = some t

theorem bindExt_refl (B : List (Nat × STy)) : bindExt B B :=
  fun _ _ h => h

theorem bindExt_trans {B1 B2 B3 : List (Nat × STy)}
    (h12 : bindExt B1 B2) (h23 : bindExt B2 B3) : bindExt B1 B3 :=
  fun i t h => h23 i t (h12 i t h)

theorem bindExt_insert {B : List (Nat × STy)} {i : Nat} {t : STy}
    (h : lookupB B i = none) : bindExt B ((i, t) :: B) := by
  intro j u hj
  by_cases hij : i = j
  · subst hij
    rw [h] at hj
    exact Option.noConfusion hj
  · simpa [lookupB, hij] using hj

/-- Helper for the catch-all alternative of `matchG`: whenever the equation
reduces to the structural-equality test, a successful match leaves the
bindings unchanged. -/
theorem matchG_ext_catchall {sig site : STy} {B B' : List (Nat × STy)}
    (h : (if STy.structEq sig site then some B else none) = some B') :
    bindExt B B' := by
  split at h
  · simp only [Option.some.injEq] at h
    exact h ▸ bindExt_refl B
  · exact Option.noConfusion h

mutual
theorem matchG_ext (sig site : STy) (B B' : List (Nat × STy))
    (h : matchG sig site B = some B') : bindExt B B' := by
  cases sig with
  | sgeneric n i =>
      simp only [matchG] at h
      cases hl : lookupB B i with
      | none =>
          rw [hl] at h
          simp only [Option.some.injEq] at h
          exact h ▸ bindExt_insert hl
      | some t =>
          rw [hl] at h
          by_cases hst : STy.structEq t site = true
          · simp only [hst, if_true, Option.some.injEq] at h
            exact h ▸ bindExt_refl B
          · simp only [hst, if_false] at h
            exact Option.noConfusion h
  | sarray a =>
      cases site
      case sarray b =>
        simp only [matchG] at h
        exact matchG_ext a b B B' h
      all_goals (simp only [matchG] at h; exact matchG_ext_catchall h)
  | sfunction as r =>
      cases site
      case sfunction bs s =>
        simp only [matchG] at h
        cases hm : matchGList as bs B with
        | none => rw [hm] at h; exact Option.noConfusion h
        | some B1 =>
            rw [hm] at h
            exact bindExt_trans (matchGList_ext as bs B B1 hm)
              (matchG_ext r s B1 B' h)
      all_goals (simp only [matchG] at h; exact matchG_ext_catchall h)
  | sptr a =>
      cases site
      case sptr b =>
        simp only [matchG] at h
        exact matchG_ext a b B B' h
      all_goals (simp only [matchG] at h; exact matchG_ext_catchall h)
  | svoid => cases site <;> (simp only [matchG] at h; exact matchG_ext_catchall h)
  | int8 => cases site <;> (simp only [matchG] at h; exact matchG_ext_catchall h)
  | int16 => cases site <;> (simp only [matchG] at h; exact matchG_ext_catchall h)
  | int32 => cases site <;> (simp only [matchG] at h; exact matchG_ext_catchall h)
  | int64 => cases site <;> (simp only [matchG] at h; exact matchG_ext_catchall h)
  | sbool => cases site <;> (simp only [matchG] at h; exact matchG_ext_catchall h)
  | sstring => cases site <;> (simp only [matchG] at h; exact matchG_ext_catchall h)
  | sstruct m => cases site <;> (simp only [matchG] at h; exact matchG_ext_catchall h)

theorem matchGList_ext (sigs sites : List STy) (B B' : List (Nat × STy))
    (h : matchGList sigs sites B = some B') : bindExt B B' := by
  cases sigs with
  | nil =>
      cases sites with
      | nil =>
          simp only [matchGList, Option.some.injEq] at h
          exact h ▸ bindExt_refl B
      | cons b bs =>
          simp only [matchGList] at h
          exact Option.noConfusion h
  | cons a as =>
      cases sites with
      | nil =>
          simp only [matchGList] at h
          exact Option.noConfusion h
      | cons b bs =>
          simp only [matchGList] at h
          cases hm : matchG a b B with
          | none => rw [hm] at h; exact Option.noConfusion h
          | some B1 =>
              rw [hm] at h
              exact bindExt_trans (matchG_ext a b B B1 hm)
                (matchGList_ext as bs B1 B' h)
end

/-- Lookup immediately after recording a binding finds that binding. -/
theorem lookupB_cons_self (B : List (Nat × STy)) (i : Nat) (t : STy) :
    lookupB ((i, t) :: B) i = some t := by
  simp [lookupB]

/-- A type that is structurally equal to `Int8` is `Int8`. -/
theorem structEq_int8 (a : STy) (h : STy.structEq a STy.int8 = true) :
    a = STy.int8 := by
  cases a <;> simp_all [STy.structEq]

/-- Helper for the catch-all alternative of `matchG` in the idempotence
proof: when the match succeeded through the structural-equality test and
substitution leaves the signature position unchanged, the substituted
signature is structurally equal to the site. -/
theorem matchG_subst_catchall {sig site : STy} {B B' : List (Nat × STy)}
    (B'' : List (Nat × STy))
    (h : (if STy.structEq sig site then some B else none) = some B')
    (hid : STy.structEq sig site = true → subst B'' sig = sig) :
    STy.structEq (subst B'' sig) site = true := by
  split at h
  · next hc => rw [hid hc]; exact hc
  · exact Option.noConfusion h

mutual
theorem matchG_subst (sig site : STy) (B B' : List (Nat × STy))
    (h : matchG sig site B = some B') (B'' : List (Nat × STy))
    (hext : bindExt B' B'') :
    STy.structEq (subst B'' sig) site = true := by
  cases sig with
  | sgeneric n i =>
      simp only [matchG] at h
      cases hl : lookupB B i with
      | none =>
          rw [hl] at h
          simp only [Option.some.injEq] at h
          have hB' : lookupB B' i = some site := by
            rw [← h]; exact lookupB_cons_self B i site
          have hB'' : lookupB B'' i = some site := hext i site hB'
          simp only [subst, hB'']
          exact STy.structEq_refl site
      | some t =>
          rw [hl] at h
          by_cases hst : STy.structEq t site = true
          · simp only [hst, if_true, Option.some.injEq] at h
            have hB'' : lookupB B'' i = some t := hext i t (h ▸ hl)
            simp only [subst, hB'']
            exact hst
          · simp only [hst, if_false] at h
            exact Option.noConfusion h
  | sarray a =>
      cases site
      case sarray b =>
        simp only [matchG] at h
        simp only [subst, STy.structEq]
        exact matchG_subst a b B B' h B'' hext
      case sstring =>
        simp only [matchG] at h
        refine matchG_subst_catchall B'' h (fun hc => ?_)
        have ha : a = STy.int8 := by
          apply structEq_int8
          simpa [STy.structEq] using hc
        subst ha
        simp [subst]
      all_goals (simp only [matchG] at h; exact matchG_subst_catchall B'' h (fun hc => by simp [STy.structEq] at hc))
  | sfunction as r =>
      cases site
      case sfunction bs s =>
        simp only [matchG] at h
        cases hm : matchGList as bs B with
        | none => rw [hm] at h; exact Option.noConfusion h
        | some B1 =>
            rw [hm] at h
            have hargs : STy.structEqList (substList B'' as) bs = true :=
              matchGList_subst as bs B B1 hm B''
                (bindExt_trans (matchG_ext r s B1 B' h) hext)
            have hret : STy.structEq (subst B'' r) s = true :=
              matchG_subst r s B1 B' h B'' hext
            simp only [subst, STy.structEq, hargs, hret, Bool.and_self]
      all_goals (simp only [matchG] at h; exact matchG_subst_catchall B'' h (fun hc => by simp [STy.structEq] at hc))
  | sptr a =>
      cases site
      case sptr b =>
        simp only [matchG] at h
        simp only [subst, STy.structEq]
        exact matchG_subst a b B B' h B'' hext
      all_goals (simp only [matchG] at h; exact matchG_subst_catchall B'' h (fun hc => by simp [STy.structEq] at hc))
  | svoid =>
      cases site <;> (simp only [matchG] at h; exact matchG_subst_catchall B'' h (fun _ => by simp [subst]))
  | int8 =>
      cases site <;> (simp only [matchG] at h; exact matchG_subst_catchall B'' h (fun _ => by simp [subst]))
  | int16 =>
      cases site <;> (simp only [matchG] at h; exact matchG_subst_catchall B'' h (fun _ => by simp [subst]))
  | int32 =>
      cases site <;> (simp only [matchG] at h; exact matchG_subst_catchall B'' h (fun _ => by simp [subst]))
  | int64 =>
      cases site <;> (simp only [matchG] at h; exact matchG_subst_catchall B'' h (fun _ => by simp [subst]))
  | sbool =>
      cases site <;> (simp only [matchG] at h; exact matchG_subst_catchall B'' h (fun _ => by simp [subst]))
  | sstring =>
      cases site <;> (simp only [matchG] at h; exact matchG_subst_catchall B'' h (fun _ => by simp [subst]))
  | sstruct m =>
      cases site <;> (simp only [matchG] at h; exact matchG_subst_catchall B'' h (fun _ => by simp [subst]))

theorem matchGList_subst (sigs sites : List STy) (B B' : List (Nat × STy))
    (h : matchGList sigs sites B = some B') (B'' : List (Nat × STy))
    (hext : bindExt B' B'') :
    STy.structEqList (substList B'' sigs) sites = true := by
  cases sigs with
  | nil =>
      cases sites with
      | nil => simp [substList, STy.structEqList]
      | cons b bs =>
          simp only [matchGList] at h
          exact Option.noConfusion h
  | cons a as =>
      cases sites with
      | nil =>
          simp only [matchGList] at h
          exact Option.noConfusion h
      | cons b bs =>
          simp only [matchGList] at h
          cases hm : matchG a b B with
          | none => rw [hm] at h; exact Option.noConfusion h
          | some B1 =>
              rw [hm] at h
              have hhead : STy.structEq (subst B'' a) b = true :=
                matchG_subst a b B B1 hm B''
                  (bindExt_trans (matchGList_ext as bs B1 B' h) hext)
              have htail : STy.structEqList (substList B'' as) bs = true :=
                matchGList_subst as bs B1 B' h B'' hext
              simp only [substList, STy.structEqList, hhead, htail, Bool.and_self]
end

/-! ## Claim theorems -/

/-- C1: For an `Assign` whose left-hand side is a `Variable` bound to a
`Binding`, type inference raises `AssignToImmutable` exactly when the
`Binding` was declared immutable (`CanMutate = false`, a `val`), and accepts
the assignment with the bound variable's type when the `Binding` was
declared mutable (a `var`); a `Variable`'s mutability is that of its
defining expression. -/
theorem assign_to_bound_variable (vn bn : String) (init : Expr)
    (body : Option Expr) (canMutate : Bool) (d r : Expr) (lty : STy) :
    (Expr.var vn (some d)).isMutable = d.isMutable ∧
    assignTypeInfer (Expr.var vn (some (Expr.binding bn init canMutate body))) r lty
      = (if canMutate then Except.ok lty
         else Except.error TError.AssignToImmutable) := by
  constructor
  · simp [Expr.isMutable]
  · cases canMutate <;> simp [assignTypeInfer, Expr.isMutable]

/-- C3: `Member::isMutable` and `ArrayAccess::isMutable` return `true`
regardless of the source expression's mutability, so an `Assign` whose
left-hand side is a struct-field projection or an array element is never
rejected with `AssignToImmutable`, even when the container expression was
introduced by an immutable binding. -/
theorem member_arrayAccess_mutable (s idx r : Expr) (f : String) (lty : STy) :
    (Expr.member s f).isMutable = true ∧
    (Expr.arrayAccess s idx).isMutable = true ∧
    assignTypeInfer (Expr.member s f) r lty = Except.ok lty ∧
    assignTypeInfer (Expr.arrayAccess s idx) r lty = Except.ok lty := by
  refine ⟨?_, ?_, ?_, ?_⟩ <;> simp [assignTypeInfer, Expr.isMutable]

/-- C4 counterexample: a `RegisterFunArg` constructed with a (non-null)
`Int32` type has a non-empty resolved-type slot immediately after
construction, so it is not the case that `getSType()` returns null for
every freshly constructed expression variant. -/
theorem ctorSType_registerFunArg_counterexample :
    Expr.ctorSType (Expr.registerFunArg (some STy.int32)) = some STy.int32 ∧
    some STy.int32 ≠ (none : Option STy) := by
  constructor
  · simp [Expr.ctorSType]
  · simp

/-- C4 amended: immediately after construction the resolved-type slot is
empty for every expression variant except `RegisterFunArg`, whose
constructor installs the type handed to it. -/
theorem ctorSType_empty_except_registerFunArg (e : Expr) :
    Expr.ctorSType e = none ∨
    ∃ ty, e = Expr.registerFunArg ty ∧ Expr.ctorSType e = ty := by
  cases e
  case registerFunArg ty => exact Or.inr ⟨ty, rfl, by simp [Expr.ctorSType]⟩
  all_goals (exact Or.inl (by simp [Expr.ctorSType]))

/-- C5 counterexample: the `SGenericType` constructed on run `2^32` is a
distinct instance from the one constructed on run 0, yet it receives the
same id (the 32-bit `unsigned` counter wraps), so ids are neither globally
unique nor monotonic over a whole process run. -/
theorem sgeneric_id_wraparound_counterexample :
    SGenericType.nthId (2 ^ 32) = SGenericType.nthId 0 ∧ (2 ^ 32 : Nat) ≠ 0 := by
  constructor
  · rw [SGenericType.nthId_eq, SGenericType.nthId_eq]
    norm_num
  · norm_num

/-- C5 amended: among the first `2^32` constructions of a process run the
counter does not wrap, so construction order gives strictly increasing ids
(and hence no two distinct instances share an id). -/
theorem sgeneric_id_monotone_below_wrap (m n : Nat) (hmn : m < n)
    (hn : n < 2 ^ 32) : SGenericType.nthId m < SGenericType.nthId n := by
  rw [SGenericType.nthId_eq, SGenericType.nthId_eq,
    Nat.mod_eq_of_lt (lt_trans hmn hn), Nat.mod_eq_of_lt hn]
  exact hmn

/-- C5 amended, witness: the first two constructed instances have strictly
increasing ids. -/
theorem sgeneric_id_monotone_below_wrap_witness :
    SGenericType.nthId 0 < SGenericType.nthId 1 :=
  sgeneric_id_monotone_below_wrap 0 1 (by norm_num) (by norm_num)

/-- C2 counterexample: two structurally equal one-element type tuples built
from distinct `SArray Int8` allocations (addresses 5 and 6) do not select
the same entry of the pointer-keyed `Func.functions` map. -/
theorem functions_key_structural_counterexample :
    structEqObjs [⟨5, STy.sarray STy.int8⟩] [⟨6, STy.sarray STy.int8⟩] = true ∧
    sameFunctionsEntry [⟨5, STy.sarray STy.int8⟩] [⟨6, STy.sarray STy.int8⟩] = false := by
  constructor
  · simp [structEqObjs, STy.structEqList, STy.structEq]
  · simp [sameFunctionsEntry]

/-- Pointer-equal tuples over a well-formed heap (one type value per
address) are structurally equal. -/
theorem structEqObjs_of_same_ids : ∀ (k1 k2 : List STypeObj),
    (∀ a ∈ k1, ∀ b ∈ k2, a.id = b.id → a.val = b.val) →
    k1.map STypeObj.id = k2.map STypeObj.id →
    structEqObjs k1 k2 = true
  | [], [], _, _ => by simp [structEqObjs, STy.structEqList]
  | [], _ :: _, _, h => by simp at h
  | _ :: _, [], _, h => by simp at h
  | a :: as, b :: bs, wf, h => by
      simp only [List.map_cons, List.cons.injEq] at h
      have hv : a.val = b.val := wf a (by simp) b (by simp) h.1
      have ht : structEqObjs as bs = true :=
        structEqObjs_of_same_ids as bs
          (fun x hx y hy => wf x (by simp [hx]) y (by simp [hy])) h.2
      simp only [structEqObjs, List.map_cons, STy.structEqList, Bool.and_eq_true]
      refine ⟨by rw [hv]; exact STy.structEq_refl b.val, ?_⟩
      simpa [structEqObjs] using ht

/-- C2 amended: `Func.functions` is keyed by the pointer identity of the
`SType` instances: two type tuples select the same table entry exactly when
they consist element-wise of the same instances, and (over a well-formed
heap, one type value per address) tuples selecting the same entry are
structurally equal; structural equality of distinct instances does not
suffice to select the same entry. -/
theorem functions_key_pointer_identity (k1 k2 : List STypeObj)
    (wf : ∀ a ∈ k1, ∀ b ∈ k2, a.id = b.id → a.val = b.val) :
    (sameFunctionsEntry k1 k2 = true ↔
      k1.map STypeObj.id = k2.map STypeObj.id) ∧
    (sameFunctionsEntry k1 k2 = true → structEqObjs k1 k2 = true) := by
  constructor
  · simp [sameFunctionsEntry]
  · intro hsame
    have hids : k1.map STypeObj.id = k2.map STypeObj.id := by
      simpa [sameFunctionsEntry] using hsame
    exact structEqObjs_of_same_ids k1 k2 wf hids

/-- C2 amended, witness: a tuple always selects its own entry, and the
entry selection implies structural equality on a concrete well-formed
heap. -/
theorem functions_key_pointer_identity_witness :
    sameFunctionsEntry [⟨5, STy.int8⟩] [⟨5, STy.int8⟩] = true ∧
    structEqObjs [⟨5, STy.int8⟩] [⟨5, STy.int8⟩] = true := by
  have h := functions_key_pointer_identity [⟨5, STy.int8⟩] [⟨5, STy.int8⟩]
    (by intro a ha b hb hid; simp only [List.mem_singleton] at ha hb; rw [ha, hb])
  have hs : sameFunctionsEntry [⟨5, STy.int8⟩] [⟨5, STy.int8⟩] = true := by
    simp [sameFunctionsEntry]
  exact ⟨hs, h.2 hs⟩

/-- C6: `MatchGenerics` is idempotent — whenever matching the callee's
argument signature against a call site's type tuple derives a set of
generic bindings, applying those bindings back to the signature yields the
call site's types (up to the language's structural type equality); the walk
is structural, recording a binding at each `Generic` position and requiring
structural equality elsewhere. -/
theorem matchGenerics_idempotent (sigArgs callTypes : List STy)
    (B : List (Nat × STy)) (h : MatchGenerics sigArgs callTypes = some B) :
    STy.structEqList (substList B sigArgs) callTypes = true :=
  matchGList_subst sigArgs callTypes [] B h B (bindExt_refl B)

/-- C6 witness: matching `(T, Int32)` against the site tuple
`(Bool, Int32)` binds `T := Bool`, and substituting back yields the site
tuple. -/
theorem matchGenerics_idempotent_witness :
    MatchGenerics [STy.sgeneric "T" 0, STy.int32] [STy.sbool, STy.int32]
      = some [(0, STy.sbool)] ∧
    STy.structEqList
      (substList [(0, STy.sbool)] [STy.sgeneric "T" 0, STy.int32])
      [STy.sbool, STy.int32] = true := by
  have hm : MatchGenerics [STy.sgeneric "T" 0, STy.int32] [STy.sbool, STy.int32]
      = some [(0, STy.sbool)] := by
    simp [MatchGenerics, matchGList, matchG, lookupB, STy.structEq]
  exact ⟨hm, matchGenerics_idempotent _ _ _ hm⟩

/-- C7: the `String` type is a singleton — a call to `SString::get()` after
any earlier call returns the same instance the earlier call returned — and
it is structurally equal to `Array<Int8>`: the `SString` constructor
produces an array object whose type name is that of `Array` and whose
contained element type is `Int8`. -/
theorem sstring_singleton_and_structure :
    (mkSString = mkSArray STy.int8 ∧ mkSString.name = "Array" ∧
      mkSString.contained = STy.int8) ∧
    (∀ (fresh1 r : SStringRef) (s s' : Option SStringRef),
      sstringGet fresh1 s = (r, s') →
      ∀ fresh2 : SStringRef, sstringGet fresh2 s' = (r, s')) := by
  refine ⟨⟨rfl, rfl, rfl⟩, ?_⟩
  intro f1 r s s' h f2
  cases s with
  | none =>
      simp only [sstringGet, Prod.mk.injEq] at h
      rw [← h.2, ← h.1]
      simp [sstringGet]
  | some x =>
      simp only [sstringGet, Prod.mk.injEq] at h
      rw [← h.2, ← h.1]
      simp [sstringGet]

/-- C7 witness: after a first call returned instance 3 and cached it, a
later call returns instance 3 again. -/
theorem sstring_singleton_witness : sstringGet 7 (some 3) = (3, some 3) :=
  sstring_singleton_and_structure.2 3 3 none (some 3) rfl 7

/-- C8: every `Extern` is constructed with purity `FunIO`, with every
declared parameter's name set to the placeholder `"$"`, and with the
generics-bound flag false; its `Gen` returns the function handle without
emitting a body. -/
theorem extern_ctor_invariants (name : String)
    (generics args : List TypePlaceholderRef) :
    (mkExtern name generics args).pureness = Purity.FunIO ∧
    (mkExtern name generics args).args = List.replicate args.length "$" ∧
    (mkExtern name generics args).genericsAreBound = false ∧
    (externGen (mkExtern name generics args)).emittedBody = false ∧
    (externGen (mkExtern name generics args)).handle = name := by
  refine ⟨rfl, ?_, rfl, rfl, rfl⟩
  show args.map (fun _ => "$") = List.replicate args.length "$"
  induction args with
  | nil => rfl
  | cons a as ih => simp [List.replicate, ih]

/-- C9: `ParamRebind` is the identity on every type whose dynamic class
does not override it — `Void`, the integer primitives, `Bool`, structs,
pointers, generics — and on `String`; only `Array` and `Function` override
it and can produce a different type. -/
theorem paramRebind_identity (t : STy) (prms : List STy)
    (h : STy.overridesParamRebind t = false) :
    STy.ParamRebind prms t = t := by
  cases t <;> simp_all [STy.overridesParamRebind, STy.ParamRebind]

/-- C9 witness: rebinding the non-overriding `String` type against a
non-empty parameter list returns the type unchanged. -/
theorem paramRebind_identity_witness :
    STy.ParamRebind [STy.int32] STy.sstring = STy.sstring :=
  paramRebind_identity STy.sstring [STy.int32] rfl

/-- C10: the parser's token enumeration consists of exactly the categories
`def`, `io`, `imp`, `var`, `val`, `binary`, `unary`, `identifier` and
`number` plus the distinguished end-of-file token — ten enumerators in all,
with pairwise distinct values. -/
theorem token_enum_distinct :
    Parser.allTokens.length = 10 ∧
    (∀ t : Parser.Token, t ∈ Parser.allTokens) ∧
    (Parser.allTokens.map Parser.tokenValue).Nodup := by
  refine ⟨rfl, ?_, ?_⟩
  · intro t
    cases t <;> simp [Parser.allTokens]
  · decide

end SPL
